import Mathlib

/-!
# Goal Guardian — weekly accounting engine, shallow embedding

This file embeds the weekly accounting logic of the Goal Guardian web client
(ISO week identifiers, previous-week computation, the weekly task aggregate,
drift reconciliation, the streak walk, the weekly rating, and the history
best-streak computation) as Lean definitions and proves the specified
properties about them.

Modelling conventions:
* Calendar days are integers: day 0 is 0001-01-01 (proleptic Gregorian), a
  Monday.  JavaScript `Date` values normalised with `setHours(0,0,0,0)` are
  such day numbers; instants inside a day are rationals on the same axis
  (the local timezone is modelled with a fixed UTC offset, so the difference
  of two local midnights is a whole number of days, which is what the source
  arithmetic assumes).
* JavaScript floating-point numbers are modelled as rationals.
* Week identifiers `YYYY-Www` are modelled both as `(year, week)` integer
  pairs and, where the source manipulates the rendered string (sorting,
  parsing), as explicit character lists.
-/

namespace GoalGuardian

/-- Day-of-week as JavaScript `Date.prototype.getDay` (0 = Sunday .. 6 =
Saturday).  Day 0 (0001-01-01) is a Monday, hence the `+ 1`. -/
def jsDow (z : Int) : Int := (z + 1) % 7

/-- Day number of January 1 of year `y` in the proleptic Gregorian calendar
(day 0 = 0001-01-01).  Models `new Date(y, 0, 1)` at local midnight. -/
def jan1 (y : Int) : Int :=
  365 * (y - 1) + (y - 1) / 4 - (y - 1) / 100 + (y - 1) / 400

/-- Calendar year containing day `z`; models `Date.prototype.getFullYear`.
Computed by an initial estimate followed by at most one correction in each
direction; `yearOf_bounds` proves the characterising property. -/
def yearOf (z : Int) : Int :=
  if z < jan1 (400 * z / 146097 + 1) then 400 * z / 146097
  else if jan1 (400 * z / 146097 + 2) ≤ z then 400 * z / 146097 + 2
  else 400 * z / 146097 + 1

theorem jan1_mono {a b : Int} (h : a ≤ b) : jan1 a ≤ jan1 b := by
  unfold jan1; omega

theorem yearOf_bounds (z : Int) :
    jan1 (yearOf z) ≤ z ∧ z < jan1 (yearOf z + 1) := by
  unfold yearOf
  split_ifs with ha hb
  · unfold jan1 at *; omega
  · unfold jan1 at *; omega
  · have h2 : (400 * z / 146097 + 1 + 1 : Int) = 400 * z / 146097 + 2 := by ring
    rw [h2]
    unfold jan1 at *; omega

/-- The nearest-Thursday shift performed by `getWeekIdFromDate`:
`d.setDate(d.getDate() + 4 - (d.getDay() || 7))`. -/
def thursdayShift (z : Int) : Int :=
  z + 4 - (if jsDow z = 0 then 7 else jsDow z)

/-- `getWeekIdFromDate` (src/App.tsx): normalise to midnight, shift to the
Thursday of the date's Monday-based week, and compute
`ceil((daysSinceJan1 + 1) / 7)` in that Thursday's year.  The result is the
`(year, weekNumber)` pair that the source renders as `YYYY-Www`.
`Math.ceil((diff + 1) / 7)` is `(diff + 7) / 7` for integer `diff`. -/
def getWeekIdFromDate (z : Int) : Int × Int :=
  (yearOf (thursdayShift z),
    (thursdayShift z - jan1 (yearOf (thursdayShift z)) + 7) / 7)

/-- ISO weekday, Monday = 1 .. Sunday = 7 (spec-side definition). -/
def isoDow (z : Int) : Int := z % 7 + 1

/-- Day number of the first Thursday of year `y`.  Thursdays are exactly the
days `z` with `z ≡ 3 [ZMOD 7]` (day 3 is 0001-01-04, a Thursday). -/
def firstThursday (y : Int) : Int := jan1 y + (3 - jan1 y) % 7

/-- Spec-side ISO-8601 week identifier, written from the specification's
words: a date belongs to the week of its nearest Thursday (the Thursday of
its Monday-based week); week 1 of a year is the week of the year's first
Thursday, so the week number of a Thursday `t` is its distance in whole
weeks from the first Thursday of `t`'s year, plus one. -/
def isoWeekId (z : Int) : Int × Int :=
  (yearOf (z + (4 - isoDow z)),
    (z + (4 - isoDow z) - firstThursday (yearOf (z + (4 - isoDow z)))) / 7 + 1)

theorem thursdayShift_eq_iso (z : Int) :
    thursdayShift z = z + (4 - isoDow z) := by
  unfold thursdayShift jsDow isoDow
  split_ifs with h <;> omega

theorem thursdayShift_emod (z : Int) : (thursdayShift z) % 7 = 3 := by
  unfold thursdayShift jsDow
  split_ifs with h <;> omega

/-- C2: the week-identifier resolver maps any day to the ISO-8601 week id
(year and week number) of that day's nearest Thursday; in particular
Dec 31, 2024 (a Tuesday, `jsDow = 2`) resolves to 2025-W01 and Jan 1, 2023
(a Sunday, `jsDow = 0`) resolves to 2022-W52. -/
theorem weekId_matches_iso :
    (∀ z : Int, getWeekIdFromDate z = isoWeekId z)
    ∧ jsDow (jan1 2025 - 1) = 2 ∧ getWeekIdFromDate (jan1 2025 - 1) = (2025, 1)
    ∧ jsDow (jan1 2023) = 0 ∧ getWeekIdFromDate (jan1 2023) = (2022, 52) := by
  refine ⟨fun z => ?_, by decide, by decide, by decide, by decide⟩
  unfold getWeekIdFromDate isoWeekId
  rw [← thursdayShift_eq_iso]
  have hb := yearOf_bounds (thursdayShift z)
  have hm := thursdayShift_emod z
  have hft : firstThursday (yearOf (thursdayShift z)) =
      jan1 (yearOf (thursdayShift z)) +
        (3 - jan1 (yearOf (thursdayShift z))) % 7 := rfl
  refine Prod.ext rfl ?_
  simp only []
  omega

/-- `getPreviousWeekId` (src/App.tsx): parse the `(year, week)` pair of the
identifier, rebuild a date inside that week as `new Date(y, 0, 4)`
(= `jan1 y + 3`, January 4 is always in ISO week 1) plus `(w - 1)` weeks,
subtract 7 days, and re-resolve through `getWeekIdFromDate`. -/
def getPreviousWeekId (p : Int × Int) : Int × Int :=
  getWeekIdFromDate (jan1 p.1 + 3 + (p.2 - 1) * 7 - 7)

/-- C3: `getPreviousWeekId` is exact at year boundaries: for week 1 of 2025
it returns 2024-W52 (2024 is a 52-week ISO year), and for week 1 of 2021 it
returns 2020-W53 (2020 is a 53-week ISO year — its last day, Dec 31 2020,
still belongs to week 53 of 2020, which the third conjunct certifies). -/
theorem previousWeekId_year_boundary :
    getPreviousWeekId (2025, 1) = (2024, 52)
    ∧ getPreviousWeekId (2021, 1) = (2020, 53)
    ∧ getWeekIdFromDate (jan1 2021 - 1) = (2020, 53) := by
  refine ⟨by decide, by decide, by decide⟩

/-! ## Rendered week identifiers

`getWeekIdFromDate` renders its result with a template literal as
`YYYY-Www` (`String(weekNo).padStart(2, "0")`); the History view parses the
string back with `split("-W")` and `parseInt`, and `fetchUserData` sorts
history entries with `localeCompare`.  Characters are modelled explicitly. -/

/-- Decimal digit characters (digits of `String(n)`); meaningful for
`d < 10`, which is the only way it is used. -/
def digitChar : Nat → Char
  | 0 => '0'
  | 1 => '1'
  | 2 => '2'
  | 3 => '3'
  | 4 => '4'
  | 5 => '5'
  | 6 => '6'
  | 7 => '7'
  | 8 => '8'
  | 9 => '9'
  | _ => '0'

/-- Two-digit zero-padded rendering, `String(w).padStart(2, "0")` for
`w ≤ 99`. -/
def pad2 (w : Nat) : List Char := [digitChar (w / 10), digitChar (w % 10)]

/-- Four-digit rendering of a year, `String(y)` for `1000 ≤ y ≤ 9999`. -/
def pad4 (y : Nat) : List Char := pad2 (y / 100) ++ pad2 (y % 100)

/-- The rendered week identifier `YYYY-Www` as a character list. -/
def weekIdChars (y w : Nat) : List Char := pad4 y ++ '-' :: 'W' :: pad2 w

/-- Code-unit lexicographic strict comparison of strings; models
`a.localeCompare(b) < 0` for the ASCII identifier strings compared by the
source (default-locale collation coincides with code-unit order there). -/
def strLtB : List Char → List Char → Bool
  | [], [] => false
  | [], _ :: _ => true
  | _ :: _, [] => false
  | a :: as, b :: bs =>
    if a.toNat < b.toNat then true
    else if b.toNat < a.toNat then false
    else strLtB as bs

/-- `weekId.split("-W")`: the characters before the first occurrence of
`-W`, and the characters after it. -/
def splitDashW : List Char → List Char × List Char
  | [] => ([], [])
  | [c] => ([c], [])
  | c1 :: c2 :: rest =>
    if c1 = '-' ∧ c2 = 'W' then ([], rest)
    else (c1 :: (splitDashW (c2 :: rest)).1, (splitDashW (c2 :: rest)).2)

/-- `parseInt` applied to a string of decimal digits. -/
def parseDigits (l : List Char) : Nat :=
  l.foldl (fun n c => n * 10 + (c.toNat - 48)) 0

/-- The History view comparator (components/History.tsx `sortedHistory`):
split both identifiers on `-W`, parse year and week as integers, compare
years first and week numbers on ties. -/
def histCmp (a b : List Char) : Int :=
  if (parseDigits (splitDashW a).1 : Int) ≠ (parseDigits (splitDashW b).1 : Int) then
    (parseDigits (splitDashW a).1 : Int) - (parseDigits (splitDashW b).1 : Int)
  else (parseDigits (splitDashW a).2 : Int) - (parseDigits (splitDashW b).2 : Int)

theorem digitChar_toNat {d : Nat} (h : d < 10) : (digitChar d).toNat = 48 + d := by
  interval_cases d <;> decide

theorem digitChar_ne_dash {d : Nat} (h : d < 10) : digitChar d ≠ '-' := by
  intro hc
  have h1 := congrArg Char.toNat hc
  rw [digitChar_toNat h] at h1
  have h2 : ('-').toNat = 45 := by decide
  omega

theorem splitDashW_sep (pre post : List Char) (hpre : ∀ c ∈ pre, c ≠ '-') :
    splitDashW (pre ++ '-' :: 'W' :: post) = (pre, post) := by
  induction pre with
  | nil => simp [splitDashW]
  | cons c cs ih =>
    have hc : c ≠ '-' := hpre c (by simp)
    have hcs : ∀ x ∈ cs, x ≠ '-' := fun x hx => hpre x (by simp [hx])
    cases cs with
    | nil => simp [splitDashW, hc]
    | cons c2 cs2 =>
      have hrec := ih hcs
      simp only [List.cons_append] at hrec ⊢
      rw [splitDashW]
      simp [hc, hrec]

theorem pad2_digits_ne_dash {w : Nat} (hw : w ≤ 99) : ∀ c ∈ pad2 w, c ≠ '-' := by
  intro c hc
  unfold pad2 at hc
  simp at hc
  rcases hc with h | h <;> subst h <;>
    exact digitChar_ne_dash (by omega)

theorem pad4_digits_ne_dash {y : Nat} (hy : y ≤ 9999) : ∀ c ∈ pad4 y, c ≠ '-' := by
  intro c hc
  unfold pad4 at hc
  rcases List.mem_append.mp hc with h | h
  · exact pad2_digits_ne_dash (by omega) c h
  · exact pad2_digits_ne_dash (by omega) c h

theorem splitDashW_weekIdChars {y : Nat} (w : Nat) (hy : y ≤ 9999) :
    splitDashW (weekIdChars y w) = (pad4 y, pad2 w) :=
  splitDashW_sep (pad4 y) (pad2 w) (pad4_digits_ne_dash hy)

theorem parseDigits_pad2 {w : Nat} (h : w ≤ 99) : parseDigits (pad2 w) = w := by
  unfold parseDigits pad2
  simp only [List.foldl]
  rw [digitChar_toNat (by omega), digitChar_toNat (by omega)]
  omega

theorem parseDigits_pad4 {y : Nat} (h : y ≤ 9999) : parseDigits (pad4 y) = y := by
  unfold parseDigits pad4 pad2
  simp only [List.cons_append, List.nil_append, List.foldl]
  rw [digitChar_toNat (by omega), digitChar_toNat (by omega),
    digitChar_toNat (by omega), digitChar_toNat (by omega)]
  omega

theorem strLtB_append {a b : List Char} (r s : List Char)
    (h : a.length = b.length) :
    strLtB (a ++ r) (b ++ s) =
      (if strLtB a b then true else if strLtB b a then false else strLtB r s) := by
  induction a generalizing b with
  | nil =>
    cases b with
    | nil => simp [strLtB]
    | cons d ds => simp at h
  | cons c cs ih =>
    cases b with
    | nil => simp at h
    | cons d ds =>
      have hlen : cs.length = ds.length := by simpa using h
      by_cases h1 : c.toNat < d.toNat
      · simp [strLtB, h1]
      · by_cases h2 : d.toNat < c.toNat
        · simp [strLtB, h1, h2]
        · simp only [List.cons_append, strLtB, if_neg h1, if_neg h2]
          exact ih hlen

theorem strLtB_pad2 {a b : Nat} (ha : a ≤ 99) (hb : b ≤ 99) :
    strLtB (pad2 a) (pad2 b) = decide (a < b) := by
  unfold pad2
  simp only [strLtB]
  rw [digitChar_toNat (d := a / 10) (by omega), digitChar_toNat (d := a % 10) (by omega),
    digitChar_toNat (d := b / 10) (by omega), digitChar_toNat (d := b % 10) (by omega)]
  split_ifs with h1 h2 h3 h4 <;> simp <;> omega

theorem pad2_length (w : Nat) : (pad2 w).length = 2 := by simp [pad2]

theorem pad4_length (y : Nat) : (pad4 y).length = 4 := by simp [pad4, pad2]

theorem strLtB_pad4 {a b : Nat} (ha : a ≤ 9999) (hb : b ≤ 9999) :
    strLtB (pad4 a) (pad4 b) = decide (a < b) := by
  unfold pad4
  rw [strLtB_append _ _ (by rw [pad2_length, pad2_length])]
  rw [strLtB_pad2 (by omega) (by omega), strLtB_pad2 (by omega) (by omega),
    strLtB_pad2 (by omega) (by omega)]
  split_ifs with h1 h2 <;> simp_all <;> omega

theorem strLtB_weekIdChars {y w y2 w2 : Nat}
    (hy : 1000 ≤ y ∧ y ≤ 9999) (hw : w ≤ 99)
    (hy2 : 1000 ≤ y2 ∧ y2 ≤ 9999) (hw2 : w2 ≤ 99) :
    strLtB (weekIdChars y w) (weekIdChars y2 w2) =
      decide (y < y2 ∨ (y = y2 ∧ w < w2)) := by
  unfold weekIdChars
  rw [strLtB_append _ _ (by rw [pad4_length, pad4_length])]
  rw [strLtB_pad4 (by omega) (by omega), strLtB_pad4 (by omega) (by omega)]
  have hsep : strLtB ('-' :: 'W' :: pad2 w) ('-' :: 'W' :: pad2 w2) =
      strLtB (pad2 w) (pad2 w2) := rfl
  rw [hsep, strLtB_pad2 (by omega) (by omega)]
  rcases Nat.lt_trichotomy y y2 with h | h | h
  · simp [h]
  · subst h; simp
  · have h1 : ¬ y < y2 := by omega
    have h2 : y ≠ y2 := by omega
    simp [h, h1, h2]

/-- C7: for every pair of week identifiers of the rendered form `YYYY-Www`
(4-digit year, zero-padded two-digit week number), both orderings the
program applies — the `localeCompare`-based most-recent-first sort in
`fetchUserData` and the parse-and-compare chronological sort of the History
view — agree with the total order by (year, week number) with both
components parsed as integers. -/
theorem weekId_orderings_agree (y w y2 w2 : Nat)
    (hy : 1000 ≤ y ∧ y ≤ 9999) (hw : 1 ≤ w ∧ w ≤ 53)
    (hy2 : 1000 ≤ y2 ∧ y2 ≤ 9999) (hw2 : 1 ≤ w2 ∧ w2 ≤ 53) :
    (strLtB (weekIdChars y w) (weekIdChars y2 w2) = true ↔
      (y < y2 ∨ (y = y2 ∧ w < w2)))
    ∧ (weekIdChars y w = weekIdChars y2 w2 ↔ (y = y2 ∧ w = w2))
    ∧ (histCmp (weekIdChars y w) (weekIdChars y2 w2) < 0 ↔
      (y < y2 ∨ (y = y2 ∧ w < w2)))
    ∧ (histCmp (weekIdChars y w) (weekIdChars y2 w2) = 0 ↔
      (y = y2 ∧ w = w2)) := by
  have hcmp : histCmp (weekIdChars y w) (weekIdChars y2 w2) =
      (if (y : Int) ≠ (y2 : Int) then (y : Int) - y2 else (w : Int) - w2) := by
    unfold histCmp
    rw [splitDashW_weekIdChars _ (by omega), splitDashW_weekIdChars _ (by omega)]
    rw [parseDigits_pad4 (by omega), parseDigits_pad4 (by omega),
      parseDigits_pad2 (by omega), parseDigits_pad2 (by omega)]
  refine ⟨?_, ?_, ?_, ?_⟩
  · rw [strLtB_weekIdChars hy (by omega) hy2 (by omega)]
    simp
  · constructor
    · intro he
      have h1 : splitDashW (weekIdChars y w) = splitDashW (weekIdChars y2 w2) := by
        rw [he]
      rw [splitDashW_weekIdChars _ (by omega), splitDashW_weekIdChars _ (by omega)] at h1
      have ha := congrArg (fun p => parseDigits p.1) h1
      have hb := congrArg (fun p => parseDigits p.2) h1
      simp only [] at ha hb
      rw [parseDigits_pad4 (by omega), parseDigits_pad4 (by omega)] at ha
      rw [parseDigits_pad2 (by omega), parseDigits_pad2 (by omega)] at hb
      exact ⟨ha, hb⟩
    · rintro ⟨rfl, rfl⟩; rfl
  · rw [hcmp]; split_ifs with h <;> omega
  · rw [hcmp]; split_ifs with h <;> omega

/-! ## Data model (src/types.ts)

Week identifiers inside records are carried as `(year, week)` integer
pairs; `weekIdChars` above is the rendering of such a pair, and
`weekId_orderings_agree` shows the rendering is injective and that string
comparisons of rendered identifiers agree with comparisons of the pairs. -/

inductive TaskType
  | STUDY
  | WORK
  deriving DecidableEq, Repr

inductive VerificationStatus
  | PENDING
  | VERIFYING
  | VERIFIED
  | REJECTED
  deriving DecidableEq, Repr

structure Task where
  id : String
  title : String
  description : String
  type : TaskType
  durationHours : ℚ
  createdAt : ℚ
  completedAt : Option ℚ
  status : VerificationStatus
  proofImage : Option String
  rejectionReason : Option String
  deriving DecidableEq, Repr

structure WeeklyStats where
  weekId : Int × Int
  goalHours : ℚ
  completedHours : ℚ
  screenTimeHours : ℚ
  rating : ℚ
  streakActive : Bool
  startDate : String
  endDate : String
  deriving DecidableEq, Repr

structure HistoryEntry extends WeeklyStats where
  id : String
  deriving DecidableEq, Repr

/-! ## Completed-hours aggregation (C6) -/

/-- The current-week window computed in `fetchUserData`:
`distanceToMonday = currentDay === 0 ? 6 : currentDay - 1`, Monday midnight
is `now` minus that many days floored to midnight, and the window ends the
following Monday midnight.  `now` is an instant (fractional day). -/
def weekWindow (now : ℚ) : Int × Int :=
  (⌊now⌋ - (if jsDow ⌊now⌋ = 0 then 6 else jsDow ⌊now⌋ - 1),
   ⌊now⌋ - (if jsDow ⌊now⌋ = 0 then 6 else jsDow ⌊now⌋ - 1) + 7)

/-- The task filter of `actualCompletedHours` in `fetchUserData`:
`t.status !== VERIFIED || !t.completedAt` rejects the task, and otherwise
the completion instant must satisfy `d >= monday && d < nextMonday`.  A
missing `completedAt` is `undefined`; `!x` is also true for the number `0`,
so the truthiness test is modelled as excluding instant `0` as well. -/
def taskInWindow (t : Task) (monday nextMonday : Int) : Bool :=
  match t.completedAt with
  | none => false
  | some c =>
    decide (t.status = VerificationStatus.VERIFIED) && decide (¬ c = 0)
      && decide ((monday : ℚ) ≤ c) && decide (c < (nextMonday : ℚ))

/-- `actualCompletedHours` (src/App.tsx): filter the task list through
`taskInWindow` for the current week of `now` and fold
`(acc, t) => acc + t.durationHours` from 0. -/
def actualCompletedHours (tasks : List Task) (now : ℚ) : ℚ :=
  ((tasks.filter fun t => taskInWindow t (weekWindow now).1 (weekWindow now).2).foldl
    (fun acc t => acc + t.durationHours) 0)

/-- Modelled from the specification's words for C6: a task counts exactly
when its status is VERIFIED and its completion instant lies in the
half-open window `[monday, nextMonday)`. -/
def specCounts (t : Task) (monday nextMonday : Int) : Bool :=
  match t.completedAt with
  | none => false
  | some c =>
    decide (t.status = VerificationStatus.VERIFIED)
      && decide ((monday : ℚ) ≤ c) && decide (c < (nextMonday : ℚ))

theorem foldl_add_durations (l : List Task) (a : ℚ) :
    l.foldl (fun acc t => acc + t.durationHours) a =
      a + (l.map fun t => t.durationHours).sum := by
  induction l generalizing a with
  | nil => simp
  | cons t ts ih => simp [ih]; ring

theorem taskInWindow_eq_spec (t : Task) {m m2 : Int} (h : 0 < m) :
    taskInWindow t m m2 = specCounts t m m2 := by
  unfold taskInWindow specCounts
  cases hc : t.completedAt with
  | none => rfl
  | some c =>
    by_cases h1 : (m : ℚ) ≤ c
    · have hne : ¬ c = 0 := by
        intro h0
        subst h0
        have hm : (0 : ℚ) < (m : ℚ) := by exact_mod_cast h
        linarith
      simp [h1, hne]
    · simp [h1]

/-- C6: for every task list and every instant whose week window starts
after the epoch, the current-week aggregate equals the sum of
`durationHours` over exactly the tasks that are VERIFIED with completion
instant in `[Monday 00:00, next Monday 00:00)`; the window is anchored on
a Monday (`jsDow = 1`), contains `now`, and spans exactly seven days,
whatever the current day is. -/
theorem aggregate_matches_window (tasks : List Task) (now : ℚ)
    (hpos : 0 < (weekWindow now).1) :
    actualCompletedHours tasks now =
      ((tasks.filter fun t =>
          specCounts t (weekWindow now).1 (weekWindow now).2).map
        fun t => t.durationHours).sum
    ∧ jsDow (weekWindow now).1 = 1
    ∧ ((weekWindow now).1 : ℚ) ≤ now ∧ now < ((weekWindow now).2 : ℚ)
    ∧ (weekWindow now).2 = (weekWindow now).1 + 7 := by
  have hfloor1 : (⌊now⌋ : ℚ) ≤ now := Int.floor_le now
  have hfloor2 : now < (⌊now⌋ : ℚ) + 1 := Int.lt_floor_add_one now
  have hwin : (weekWindow now).1 ≤ ⌊now⌋ ∧ ⌊now⌋ < (weekWindow now).1 + 7
      ∧ jsDow (weekWindow now).1 = 1
      ∧ (weekWindow now).2 = (weekWindow now).1 + 7 := by
    unfold weekWindow jsDow
    split_ifs with h <;> refine ⟨by omega, by omega, by omega, rfl⟩
  refine ⟨?_, hwin.2.2.1, ?_, ?_, hwin.2.2.2⟩
  · unfold actualCompletedHours
    rw [List.filter_congr fun t _ => taskInWindow_eq_spec t hpos]
    rw [foldl_add_durations]
    ring
  · have h1 : ((weekWindow now).1 : ℚ) ≤ (⌊now⌋ : ℚ) := by exact_mod_cast hwin.1
    linarith
  · have h2 : ((⌊now⌋ : ℚ) + 1) ≤ (((weekWindow now).1 + 7 : Int) : ℚ) := by
      exact_mod_cast hwin.2.1
    rw [hwin.2.2.2]
    push_cast at h2 ⊢
    linarith

/-! ## Drift reconciliation (C5) -/

/-- The self-heal step of `fetchUserData`: when the persisted current-week
record's completed hours differ from the recomputed aggregate by more than
0.1, the aggregate wins — the in-memory record is updated and one
background write of the aggregate is issued; otherwise nothing changes and
nothing is written.  The second component collects the issued write-backs. -/
def selfHeal (stats : WeeklyStats) (actual : ℚ) : WeeklyStats × List ℚ :=
  if |stats.completedHours - actual| > 1 / 10 then
    ({ stats with completedHours := actual }, [actual])
  else (stats, [])

/-- C5: the reconciler adopts the aggregate and issues exactly one
write-back precisely when persisted and aggregate values differ by more
than 0.1, keeps the persisted value with no write-back otherwise, and
never touches any other field of the record. -/
theorem selfHeal_reconciles (stats : WeeklyStats) (actual : ℚ) :
    ((selfHeal stats actual).1.completedHours =
      if |stats.completedHours - actual| > 1 / 10 then actual
      else stats.completedHours)
    ∧ ((selfHeal stats actual).2 =
      if |stats.completedHours - actual| > 1 / 10 then [actual] else [])
    ∧ (selfHeal stats actual).1.weekId = stats.weekId
    ∧ (selfHeal stats actual).1.goalHours = stats.goalHours
    ∧ (selfHeal stats actual).1.screenTimeHours = stats.screenTimeHours
    ∧ (selfHeal stats actual).1.rating = stats.rating
    ∧ (selfHeal stats actual).1.streakActive = stats.streakActive
    ∧ (selfHeal stats actual).1.startDate = stats.startDate
    ∧ (selfHeal stats actual).1.endDate = stats.endDate := by
  unfold selfHeal
  split_ifs with h <;> simp

/-! ## Weekly rating (C4) -/

/-- `parseFloat(x.toFixed(1))` for the clamped values produced by the
rating: rounding to one decimal place, half away from zero — which on the
nonnegative clamped range is half up. -/
def roundTo1 (x : ℚ) : ℚ := (⌊x * 10 + 1 / 2⌋ : ℚ) / 10

/-- `calculateWeeklyRating` (services/geminiService.ts): 0 when the goal is
0; otherwise the productivity score `completed / goal * 10` minus a penalty
of 0.5 per screen-time hour above the threshold of 14, clamped to [0, 10]
(`Math.max(0, Math.min(10, r))`) and rounded to one decimal. -/
def calculateWeeklyRating (completedHours goalHours screenTimeHours : ℚ) : ℚ :=
  if goalHours = 0 then 0
  else
    roundTo1 (max 0 (min 10 (completedHours / goalHours * 10 -
      (if screenTimeHours > 14 then (screenTimeHours - 14) * (1 / 2) else 0))))

/-- Modelled from the specification's words for C4: `completed/goal * 10`
minus `0.5 * max 0 (screenTime - 14)`, clamped to [0, 10], rounded to one
decimal place; 0 when the goal is 0. -/
def ratingSpec (completedHours goalHours screenTimeHours : ℚ) : ℚ :=
  if goalHours = 0 then 0
  else
    roundTo1 (min 10 (max 0
      (completedHours / goalHours * 10 - max 0 (screenTimeHours - 14) * (1 / 2))))

/-- C4: for all nonnegative inputs the rating implements the specified
policy, and a zero goal always yields rating 0 (no division error — in
particular for `completed = 0`). -/
theorem rating_matches_policy (c g s : ℚ) (hc : 0 ≤ c) (hg : 0 ≤ g)
    (hs : 0 ≤ s) :
    calculateWeeklyRating c g s = ratingSpec c g s
    ∧ calculateWeeklyRating 0 0 s = 0 ∧ calculateWeeklyRating c 0 s = 0 := by
  refine ⟨?_, by simp [calculateWeeklyRating], by simp [calculateWeeklyRating]⟩
  unfold calculateWeeklyRating ratingSpec
  by_cases h : g = 0
  · simp [h]
  · rw [if_neg h, if_neg h]
    have hpen : (if s > 14 then (s - 14) * (1 / 2 : ℚ) else 0) =
        max 0 (s - 14) * (1 / 2) := by
      split_ifs with h1
      · rw [max_eq_right (by linarith)]
      · rw [max_eq_left (by linarith)]
        ring
    rw [hpen, max_min_distrib_left]
    norm_num

/-! ## Proof verification (C9) -/

/-- The JSON verdict parsed from the scoring collaborator's response text
in `verifyTaskProof` (`result.verified`, `result.reason`); either field may
be absent from the parsed object. -/
structure AIVerdict where
  verified : Option Bool
  reason : Option String
  deriving DecidableEq, Repr

/-- The outcome record returned by `verifyTaskProof`. -/
structure VerifyOutcome where
  verified : Bool
  reason : String
  deriving DecidableEq, Repr

/-- The catch-branch message of `verifyTaskProof`. -/
def aiServiceFailedMsg : String := "AI verification service failed. Please try again."

/-- `verifyTaskProof` (services/geminiService.ts), with the generative-AI
call modelled by its result: a thrown error (`Except.error`) or the parsed
verdict.  The success branch returns `result.verified === true` and
`result.reason || default` (`||` also replaces an empty string); the catch
branch returns an unverified outcome with the service-failure message. -/
def verifyTaskProof (ai : Except String AIVerdict) : VerifyOutcome :=
  match ai with
  | Except.error _ => ⟨false, aiServiceFailedMsg⟩
  | Except.ok r =>
    ⟨decide (r.verified = some true),
      match r.reason with
      | none => "AI could not determine verification status."
      | some s =>
        if s = "" then "AI could not determine verification status." else s⟩

/-- The task-state update of `handleFileUpload` (TaskList revision,
src/unnamed/part_006) once the verification outcome is known: on success
the task becomes VERIFIED with completion instant `now` and the stored
proof reference; otherwise it becomes REJECTED with the outcome's reason
(`result.reason || "Verification failed"`). -/
def applyVerification (t : Task) (r : VerifyOutcome) (now : ℚ)
    (url : String) : Task :=
  if r.verified then
    { t with status := VerificationStatus.VERIFIED, completedAt := some now,
             proofImage := some url }
  else
    { t with status := VerificationStatus.REJECTED,
             rejectionReason :=
               some (if r.reason = "" then "Verification failed" else r.reason) }

/-- C9: when the AI collaborator call throws, `verifyTaskProof` returns an
unverified outcome carrying the service-failure reason instead of
propagating the error, and applying that outcome marks the submitting task
REJECTED with that reason — never VERIFYING, never VERIFIED. -/
theorem collaborator_failure_rejects (e : String) (t : Task) (now : ℚ)
    (url : String) :
    verifyTaskProof (Except.error e) = ⟨false, aiServiceFailedMsg⟩
    ∧ (applyVerification t (verifyTaskProof (Except.error e)) now url).status =
        VerificationStatus.REJECTED
    ∧ (applyVerification t (verifyTaskProof (Except.error e)) now url).rejectionReason =
        some aiServiceFailedMsg
    ∧ (applyVerification t (verifyTaskProof (Except.error e)) now url).status ≠
        VerificationStatus.VERIFYING
    ∧ (applyVerification t (verifyTaskProof (Except.error e)) now url).status ≠
        VerificationStatus.VERIFIED := by
  have hmsg : ¬ aiServiceFailedMsg = "" := by decide
  have hstat : (applyVerification t (verifyTaskProof (Except.error e)) now url).status =
      VerificationStatus.REJECTED := rfl
  refine ⟨rfl, hstat, ?_, ?_, ?_⟩
  · simp [applyVerification, verifyTaskProof, hmsg]
  · rw [hstat]; decide
  · rw [hstat]; decide

/-! ## Task lifecycle invariant (C8) -/

/-- Task creation (`handleCreateTask`): status PENDING, no completion
instant, no proof reference, no rejection reason. -/
def createTask (id title description : String) (ty : TaskType)
    (dur created : ℚ) : Task :=
  { id := id, title := title, description := description, type := ty,
    durationHours := dur, createdAt := created, completedAt := none,
    status := VerificationStatus.PENDING, proofImage := none,
    rejectionReason := none }

/-- Proof submission: `updateTaskStatus(id, VERIFYING)`.  The upload action
is only offered for tasks that are neither VERIFIED nor VERIFYING. -/
def submitProof (t : Task) : Task := { t with status := VerificationStatus.VERIFYING }

/-- The lifecycle invariant of C8: the completion instant is set exactly
when the task is VERIFIED. -/
def taskInv (t : Task) : Prop :=
  t.completedAt.isSome = true ↔ t.status = VerificationStatus.VERIFIED

/-- C8: creation establishes the completion-instant invariant, and for any
task satisfying it that is not yet VERIFIED (the only tasks offered the
upload action), both the transition to VERIFYING and the subsequent
verification outcome — success or rejection — preserve it. -/
theorem task_ops_preserve_inv (id title description : String) (ty : TaskType)
    (dur created : ℚ) (t : Task) (r : VerifyOutcome) (now : ℚ) (url : String)
    (hinv : taskInv t) (hnv : t.status ≠ VerificationStatus.VERIFIED) :
    taskInv (createTask id title description ty dur created)
    ∧ taskInv (submitProof t)
    ∧ taskInv (applyVerification (submitProof t) r now url) := by
  have hnone : t.completedAt.isSome = false := by
    rcases hs : t.completedAt.isSome with _ | _
    · rfl
    · exact absurd (hinv.mp hs) hnv
  refine ⟨by simp [taskInv, createTask], by simp [taskInv, submitProof, hnone], ?_⟩
  unfold applyVerification submitProof
  rcases hr : r.verified with _ | _ <;> simp [taskInv, hnone]

/-! ## Streak walk (C1) -/

/-- Strict `(year, week)` order on week-identifier pairs.  By
`weekId_orderings_agree` this is exactly the order that `localeCompare`
induces on the rendered identifier strings. -/
def weekIdPairLtB (p q : Int × Int) : Bool :=
  decide (p.1 < q.1 ∨ (p.1 = q.1 ∧ p.2 < q.2))

/-- The sort relation `(a, b) => b.weekId.localeCompare(a.weekId)` used on
history in `fetchUserData` before the streak walk: `a` may precede `b`
exactly when `a`'s week does not come before `b`'s, yielding a
most-recent-first list. -/
def descByWeekId (a b : HistoryEntry) : Bool := ! weekIdPairLtB a.weekId b.weekId

/-- The backward walk over stored history in `fetchUserData`: stop on a gap
(the entry does not carry the expected previous week id) or on a week that
missed its goal; otherwise count the week, move the cursor one week back
and continue. -/
def streakWalk : List HistoryEntry → Int × Int → Nat → Nat
  | [], _, streak => streak
  | e :: rest, cursor, streak =>
    if e.weekId ≠ cursor then streak
    else if e.completedHours ≥ e.goalHours then
      streakWalk rest (getPreviousWeekId cursor) (streak + 1)
    else streak

/-- The streak computation of `fetchUserData` (src/App.tsx): count the
current week exactly when its goal is already met, move the cursor to the
previous week in either case, sort the stored history most-recent-first,
and walk it backward. -/
def computeStreak (stats : WeeklyStats) (currentWeekId : Int × Int)
    (history : List HistoryEntry) : Nat :=
  streakWalk (history.mergeSort descByWeekId) (getPreviousWeekId currentWeekId)
    (if stats.completedHours ≥ stats.goalHours then 1 else 0)

/-- Modelled from the claim's words for C1 (walk): for each entry of the
ordered history, stop if the entry's week differs from the cursor;
otherwise, when the entry meets its goal, increment the streak and set the
cursor to `previousWeekId(entry.weekId)`, and stop otherwise. -/
def claimStreakWalk : List HistoryEntry → Int × Int → Nat → Nat
  | [], _, streak => streak
  | e :: rest, cursor, streak =>
    if e.weekId ≠ cursor then streak
    else if e.completedHours ≥ e.goalHours then
      claimStreakWalk rest (getPreviousWeekId e.weekId) (streak + 1)
    else streak

/-- Modelled from the claim's words for C1: streak 0 and cursor at the
current week; increment if the current week meets its goal; in either case
step the cursor back one week; then walk the given history list. -/
def claimStreak (stats : WeeklyStats) (currentWeekId : Int × Int)
    (history : List HistoryEntry) : Nat :=
  claimStreakWalk history (getPreviousWeekId currentWeekId)
    (if stats.completedHours ≥ stats.goalHours then 1 else 0)

theorem streakWalk_eq_claim :
    ∀ (l : List HistoryEntry) (cursor : Int × Int) (s : Nat),
      streakWalk l cursor s = claimStreakWalk l cursor s
  | [], _, _ => rfl
  | e :: rest, cursor, s => by
    unfold streakWalk claimStreakWalk
    by_cases h : e.weekId = cursor
    · subst h
      simp only [ne_eq, not_true_eq_false, if_false, ite_not]
      split_ifs with h2
      · exact streakWalk_eq_claim rest (getPreviousWeekId e.weekId) (s + 1)
      · rfl
    · simp [h]

/-- Example history entry: week 10 of 2025, goal met (40 of 40). -/
def entryW10 : HistoryEntry :=
  { id := "h10", weekId := (2025, 10), goalHours := 40, completedHours := 40,
    screenTimeHours := 0, rating := 0, streakActive := true,
    startDate := "", endDate := "" }

/-- Example history entry: week 8 of 2025, goal met; week 9 has no entry. -/
def entryW08 : HistoryEntry :=
  { id := "h08", weekId := (2025, 8), goalHours := 40, completedHours := 40,
    screenTimeHours := 0, rating := 0, streakActive := true,
    startDate := "", endDate := "" }

/-- Example current-week record: week 11 of 2025, goal not yet met. -/
def statsW11 : WeeklyStats :=
  { weekId := (2025, 11), goalHours := 40, completedHours := 0,
    screenTimeHours := 0, rating := 0, streakActive := true,
    startDate := "", endDate := "" }

theorem computeStreak_gap_example :
    computeStreak statsW11 (2025, 11) [entryW10, entryW08] = 1 := by
  have hs : List.mergeSort [entryW10, entryW08] descByWeekId =
      [entryW10, entryW08] :=
    List.mergeSort_of_sorted (by decide)
  unfold computeStreak
  rw [hs]
  decide

/-- C1: on history ordered most-recent-first the computed streak equals the
claim's walk (count the current week if its goal is met, step the cursor
back, then stop at the first gap or failed week); in the gap scenario —
history W10 and W08 both meeting the goal, W09 missing, current week W11
below goal — the streak is 1. -/
theorem streak_matches_walk (stats : WeeklyStats) (cw : Int × Int)
    (history : List HistoryEntry)
    (hsorted : history.Pairwise fun a b => descByWeekId a b = true) :
    computeStreak stats cw history = claimStreak stats cw history
    ∧ computeStreak statsW11 (2025, 11) [entryW10, entryW08] = 1 := by
  constructor
  · unfold computeStreak claimStreak
    rw [List.mergeSort_of_sorted hsorted]
    exact streakWalk_eq_claim _ _ _
  · exact computeStreak_gap_example

/-! ## Best streak over stored history (C10) -/

/-- `calculateBestStreak` (History view, src/unnamed/part_004 and
part_005): one pass holding the running streak — which grows on entries
meeting their goal and resets to 0 otherwise — and the maximum seen. -/
def bestStreakAux : List HistoryEntry → Nat → Nat → Nat
  | [], maxStreak, _ => maxStreak
  | e :: rest, maxStreak, cur =>
    if e.completedHours ≥ e.goalHours then
      bestStreakAux rest (max maxStreak (cur + 1)) (cur + 1)
    else bestStreakAux rest maxStreak 0

def calculateBestStreak (entries : List HistoryEntry) : Nat :=
  bestStreakAux entries 0 0

/-- Length of the all-good prefix of a list of entries. -/
def goodPrefixLen (l : List HistoryEntry) : Nat :=
  (l.takeWhile fun e => decide (e.completedHours ≥ e.goalHours)).length

/-- Modelled from the claim's words for C10: the length of the longest run
of consecutive entries of the list whose completed hours meet the goal —
the maximum, over all suffixes, of the length of the all-good prefix of
that suffix. -/
def longestGoodRun (l : List HistoryEntry) : Nat :=
  (l.tails.map goodPrefixLen).foldr max 0

theorem goodPrefixLen_cons (e : HistoryEntry) (r : List HistoryEntry) :
    goodPrefixLen (e :: r) =
      if e.completedHours ≥ e.goalHours then goodPrefixLen r + 1 else 0 := by
  unfold goodPrefixLen
  by_cases h : e.completedHours ≥ e.goalHours <;> simp [List.takeWhile_cons, h]

theorem longestGoodRun_cons (e : HistoryEntry) (r : List HistoryEntry) :
    longestGoodRun (e :: r) = max (goodPrefixLen (e :: r)) (longestGoodRun r) := by
  unfold longestGoodRun
  rw [List.tails_cons]
  simp

theorem goodPrefixLen_le (l : List HistoryEntry) :
    goodPrefixLen l ≤ longestGoodRun l := by
  cases l with
  | nil => exact Nat.le_refl 0
  | cons e r => rw [longestGoodRun_cons]; exact le_max_left _ _

theorem bestStreakAux_eq (l : List HistoryEntry) :
    ∀ m c : Nat,
      bestStreakAux l m c =
        max m (max (longestGoodRun l)
          (if 0 < goodPrefixLen l then c + goodPrefixLen l else 0)) := by
  induction l with
  | nil =>
    intro m c
    simp [bestStreakAux, longestGoodRun, goodPrefixLen]
  | cons e r ih =>
    intro m c
    have hle := goodPrefixLen_le r
    unfold bestStreakAux
    rw [longestGoodRun_cons, goodPrefixLen_cons]
    by_cases h : e.completedHours ≥ e.goalHours
    · rw [if_pos h, if_pos h, ih (max m (c + 1)) (c + 1),
        if_pos (by omega : 0 < goodPrefixLen r + 1)]
      rcases Nat.eq_zero_or_pos (goodPrefixLen r) with h0 | h0
      · rw [h0]
        simp
        omega
      · rw [if_pos h0]
        omega
    · rw [if_neg h, if_neg h, ih m 0]
      rcases Nat.eq_zero_or_pos (goodPrefixLen r) with h0 | h0
      · rw [h0]
        simp
      · rw [if_pos h0]
        simp
        omega

/-- C10: the History view's best streak equals the length of the longest
run of consecutive entries of the chronologically sorted list meeting
their goal; adjacency in the list is what counts, so the gap history
[W10 met, W08 met] (W09 missing) has best streak 2, while the
current-streak walk on the same data stops at 1. -/
theorem bestStreak_is_longest_run :
    (∀ entries : List HistoryEntry,
      calculateBestStreak entries = longestGoodRun entries)
    ∧ calculateBestStreak [entryW10, entryW08] = 2
    ∧ computeStreak statsW11 (2025, 11) [entryW10, entryW08] = 1 := by
  refine ⟨fun entries => ?_, by decide, computeStreak_gap_example⟩
  unfold calculateBestStreak
  rw [bestStreakAux_eq entries 0 0]
  have h1 := goodPrefixLen_le entries
  rcases Nat.eq_zero_or_pos (goodPrefixLen entries) with h0 | h0
  · rw [h0]
    simp
  · rw [if_pos h0]
    omega

/-! ## Witnesses -/

/-- Example task: verified, completed mid-week, two planned hours. -/
def taskEx : Task :=
  { id := "t1", title := "read", description := "", type := TaskType.STUDY,
    durationHours := 2, createdAt := 739616,
    completedAt := some (739618 + 1 / 4 : ℚ),
    status := VerificationStatus.VERIFIED, proofImage := none,
    rejectionReason := none }

/-- Example instant: half past midnight on an arbitrary 2026 day. -/
def nowEx : ℚ := 739620 + 1 / 2

/-- Example freshly created task used to instantiate the C8 invariant. -/
def pendingTaskEx : Task := createTask "t2" "draft" "notes" TaskType.WORK 1 739616

theorem weekId_orderings_agree_witness :
    (strLtB (weekIdChars 2024 7) (weekIdChars 2024 10) = true ↔
      (2024 < 2024 ∨ (2024 = 2024 ∧ 7 < 10)))
    ∧ (weekIdChars 2024 7 = weekIdChars 2024 10 ↔ (2024 = 2024 ∧ 7 = 10))
    ∧ (histCmp (weekIdChars 2024 7) (weekIdChars 2024 10) < 0 ↔
      (2024 < 2024 ∨ (2024 = 2024 ∧ 7 < 10)))
    ∧ (histCmp (weekIdChars 2024 7) (weekIdChars 2024 10) = 0 ↔
      (2024 = 2024 ∧ 7 = 10)) :=
  weekId_orderings_agree 2024 7 2024 10 (by omega) (by omega) (by omega) (by omega)

theorem aggregate_matches_window_witness :
    0 < (weekWindow nowEx).1
    ∧ (actualCompletedHours [taskEx] nowEx =
        (([taskEx].filter fun t =>
            specCounts t (weekWindow nowEx).1 (weekWindow nowEx).2).map
          fun t => t.durationHours).sum
      ∧ jsDow (weekWindow nowEx).1 = 1
      ∧ ((weekWindow nowEx).1 : ℚ) ≤ nowEx ∧ nowEx < ((weekWindow nowEx).2 : ℚ)
      ∧ (weekWindow nowEx).2 = (weekWindow nowEx).1 + 7) :=
  ⟨by norm_num [weekWindow, jsDow, nowEx],
    aggregate_matches_window [taskEx] nowEx (by norm_num [weekWindow, jsDow, nowEx])⟩

theorem rating_matches_policy_witness :
    (0 ≤ (3 : ℚ)) ∧ (0 ≤ (4 : ℚ)) ∧ (0 ≤ (20 : ℚ))
    ∧ (calculateWeeklyRating 3 4 20 = ratingSpec 3 4 20
      ∧ calculateWeeklyRating 0 0 20 = 0 ∧ calculateWeeklyRating 3 0 20 = 0) :=
  ⟨by norm_num, by norm_num, by norm_num,
    rating_matches_policy 3 4 20 (by norm_num) (by norm_num) (by norm_num)⟩

theorem task_ops_preserve_inv_witness :
    taskInv pendingTaskEx
    ∧ pendingTaskEx.status ≠ VerificationStatus.VERIFIED
    ∧ (taskInv (createTask "a" "b" "c" TaskType.WORK 2 5)
      ∧ taskInv (submitProof pendingTaskEx)
      ∧ taskInv (applyVerification (submitProof pendingTaskEx)
          ⟨true, "ok"⟩ 739617 "url")) :=
  ⟨by unfold taskInv; decide, by decide,
    task_ops_preserve_inv "a" "b" "c" TaskType.WORK 2 5 pendingTaskEx
      ⟨true, "ok"⟩ 739617 "url" (by unfold taskInv; decide) (by decide)⟩

theorem streak_matches_walk_witness :
    ([entryW10, entryW08].Pairwise fun a b => descByWeekId a b = true)
    ∧ (computeStreak statsW11 (2025, 11) [entryW10, entryW08] =
        claimStreak statsW11 (2025, 11) [entryW10, entryW08]
      ∧ computeStreak statsW11 (2025, 11) [entryW10, entryW08] = 1) :=
  ⟨by decide,
    streak_matches_walk statsW11 (2025, 11) [entryW10, entryW08] (by decide)⟩

end GoalGuardian
